import Mathlib

/-!
Verification of the pyaudio_mixer track lifecycle, queue/backpressure
protocol and playback pipeline, shallowly embedded from
src/pyaudio_mixer/output.py and src/pyaudio_mixer/input.py.

Chunks are abstracted by a type parameter: none of the verified
properties depend on sample contents, only on how chunks move through
the bounded queue and on the track's signal flags.
-/

namespace PyAudioMixer

/-- A device stream handle, as negotiated by sounddevice: we record the
fields the core reads (stream.channels, stream.samplerate). -/
structure Stream where
  channels : Nat
  samplerate : Nat
deriving DecidableEq, Repr

/-- The mutable state of an OutputTrack (output.py, OutputTrack.__init__):
the bounded queue q (front of the list = next element popped by the
runner; queue.Queue maxsize), the signal flags, and the stream handle.
The user callback receives the popped data (possibly None) and returns
possibly different data, mirroring self.callback. -/
structure OutputTrack (α : Type) where
  q : List α
  maxsize : Nat
  clear_signal : Bool
  stop_signal : Bool
  stopped : Bool
  playing : Bool
  str_handle : Option Stream
  apply_basic_fx : Bool
  callback : Option (Option α → Option α)

namespace OutputTrack

/-- Field initialization of OutputTrack.__init__ (before the start()
call it makes): empty queue with maxsize defaulting to 50, all signal
flags false except stopped, no stream handle yet. -/
def init (queue_maxsize : Option Nat) (apply_fx : Bool) (cb : Option (Option α → Option α)) :
    OutputTrack α :=
  { q := []
    maxsize := queue_maxsize.getD 50
    clear_signal := false
    stop_signal := false
    stopped := true
    playing := false
    str_handle := none
    apply_basic_fx := apply_fx
    callback := cb }

/-- Result of one call to OutputTrack.write: either the returned boolean,
the raised InterruptedError, or suspension on a full queue when
wait=True (queue.Queue.put blocking until a consumer makes space). -/
inductive WriteResult where
  | ok : Bool → WriteResult
  | interrupted : WriteResult
  | blocked : WriteResult
deriving DecidableEq, Repr

/-- OutputTrack.write(data, wait) (output.py lines 107-138): if the
clear signal has been sent, clear the queue, reset the signal and raise
InterruptedError; otherwise q.put(data, block=wait) - append when there
is room, return False on queue.Full when not blocking, and suspend when
blocking on a full queue. -/
def write (t : OutputTrack α) (data : α) (wait : Bool) : WriteResult × OutputTrack α :=
  if t.clear_signal then
    (.interrupted, { t with q := [], clear_signal := false })
  else if t.q.length < t.maxsize then
    (.ok true, { t with q := t.q ++ [data] })
  else if wait then
    (.blocked, t)
  else
    (.ok false, t)

/-- self.q.get(block=False): pop the front of the queue, or None when
the queue is empty (queue.Empty caught in __start__). -/
def qget (t : OutputTrack α) : Option α × OutputTrack α :=
  match t.q with
  | [] => (none, t)
  | d :: rest => (some d, { t with q := rest })

/-- One iteration of the runner loop body in OutputTrack.__start__
(output.py lines 287-305): non-blocking pop, pass the data through the
callback when one is set, then either mark playing and emit the chunk
(after the basic effects, abstracted by fx) or mark not playing.
Returns the new state and the data handed to stream.write, if any. -/
def runnerCycle (fx : α → α) (t : OutputTrack α) : OutputTrack α × Option α :=
  let p := qget t
  let t1 := p.2
  let data := match t1.callback with
    | some cb => cb p.1
    | none => p.1
  match data with
  | some d => ({ t1 with playing := true }, some (if t1.apply_basic_fx then fx d else d))
  | none => ({ t1 with playing := false }, none)

/-- The head of OutputTrack.__start__: entering the sounddevice context
manager sets stopped to False and publishes the stream handle. -/
def runnerStart (t : OutputTrack α) (s : Stream) : OutputTrack α :=
  { t with stopped := false, str_handle := some s }

/-- The teardown reached once the stop signal is observed (output.py
lines 307-310): the with-block closes the handle, then stopped is set,
the handle nulled and the stop signal reset.  Nothing else is touched. -/
def teardown (t : OutputTrack α) : OutputTrack α :=
  { t with stopped := true, str_handle := none, stop_signal := false }

/-- The runner loop of OutputTrack.__start__, fuel-bounded: while the
stop signal is unset run one cycle, and once it is observed perform the
teardown. -/
def runnerRun (fx : α → α) : Nat → OutputTrack α → OutputTrack α
  | 0, t => t
  | n + 1, t => if t.stop_signal then teardown t else runnerRun fx n (runnerCycle fx t).1

/-- The state change performed by OutputTrack.abort (output.py lines
96-105): the clear signal is raised only when something is playing; the
subsequent wait loop (while self._playing) suspends the caller and is
modelled separately by abort_blocks. -/
def abort_call (t : OutputTrack α) : OutputTrack α :=
  if t.playing then { t with clear_signal := true } else t

/-- Whether the wait loop at the end of abort() would suspend the caller
at this state: it polls while self._playing. -/
def abort_blocks (t : OutputTrack α) : Bool := t.playing

/-- The state change performed by OutputTrack.stop (output.py lines
88-94): first abort(), then set the stop signal; the final wait loop
(while not self._stopped) is modelled by stop_wait_blocks. -/
def stop_call (t : OutputTrack α) : OutputTrack α :=
  { abort_call t with stop_signal := true }

/-- Whether the wait loop at the end of stop() would suspend the caller
at this state: it polls while not self._stopped. -/
def stop_wait_blocks (t : OutputTrack α) : Bool := !t.stopped

/-- OutputTrack.start (output.py lines 81-86) spawns a runner thread
unconditionally - its body has no guard on the current state - so the
number of StreamRunner threads one call spawns is always 1. -/
def start_spawn_count (_t : OutputTrack α) : Nat := 1

/-- Whether the wait loop of start() would suspend the caller at this
state: it polls while self._stopped. -/
def start_wait_blocks (t : OutputTrack α) : Bool := t.stopped

/-- Modelled from the spec: the guarded start described in the spec
(spawn a runner only when the track is Stopped, otherwise no-op), for
comparison with the code's start_spawn_count. -/
def spec_start_spawn_count (t : OutputTrack α) : Nat :=
  if t.stopped then 1 else 0

end OutputTrack

/-- Split a list into consecutive pieces of the given sizes. -/
def splitBySizes : List Nat → List α → List (List α)
  | [], _ => []
  | n :: ns, l => l.take n :: splitBySizes ns (l.drop n)

/-- The section sizes np.array_split uses to cut a length-len array into
k sections: with divmod(len, k) = (q, r), the first r sections have
q + 1 elements and the remaining k - r sections have q elements. -/
def sectionSizes (len k : Nat) : List Nat :=
  List.replicate (len % k) (len / k + 1) ++ List.replicate (k - len % k) (len / k)

/-- np.array_split(l, k): cut l into k near-equal consecutive sections. -/
def array_split (l : List α) (k : Nat) : List (List α) :=
  splitBySizes (sectionSizes l.length k) l

namespace OutputTrack

/-- The section count OutputTrack.chunk_split passes to np.array_split
(output.py lines 181-185): n = len(data) / size, raised to 1 when below
1; np.array_split truncates the float quotient to an integer. -/
def num_sections (len size : Nat) : Nat :=
  if len / size < 1 then 1 else len / size

/-- OutputTrack.chunk_split (output.py lines 164-185): split the data
into n near-equal sections via np.array_split. -/
def chunk_split (data : List α) (size : Nat) : List (List α) :=
  array_split data (num_sections data.length size)

end OutputTrack

/-- np.repeat(data, k, axis=-1) on a 2-D frames-by-channels buffer:
every element of every row is repeated k times in place. -/
def np_repeat_last (data : List (List α)) (k : Nat) : List (List α) :=
  data.map (fun row => row.flatMap (fun x => List.replicate k x))

/-- Result of running the writer loop of play_file to completion: the
loop exited normally (normal exhaustion or the caught InterruptedError),
suspended on a full queue awaiting the consumer, or - hypothetically -
an exception escaped the loop. -/
inductive LoopResult (σ : Type) where
  | done : σ → LoopResult σ
  | full_wait : σ → LoopResult σ
  | raised : σ → LoopResult σ
deriving DecidableEq

/-- Whether a loop result represents an exception escaping the loop. -/
def LoopResult.isRaised : LoopResult σ → Bool
  | .raised _ => true
  | _ => false

namespace OutputTrack

/-- The channel-matching step of OutputTrack.play_file (output.py lines
247-256) on 2-D data: when the source channel count differs from the
stream's, the mono-to-stereo case bumps the repeat count to 2 and the
buffer is repeated along the channel axis. -/
def channel_match (data : List (List α)) (channel_count stream_channels : Nat) :
    List (List α) :=
  if channel_count ≠ stream_channels then
    let c := if channel_count = 1 ∧ stream_channels = 2 then 2 else channel_count
    np_repeat_last data c
  else data

/-- The inner _write function of OutputTrack.play_file (output.py lines
263-268): write each piece with wait=True, break on InterruptedError
(and KeyboardInterrupt), and never re-raise past the loop. -/
def writer_loop : OutputTrack α → List α → LoopResult (OutputTrack α)
  | t, [] => .done t
  | t, d :: rest =>
    match write t d true with
    | (.interrupted, t1) => .done t1
    | (.blocked, t1) => .full_wait t1
    | (.ok _, t1) => writer_loop t1 rest

/-- The gain factor computed by OutputTrack._apply_basic_fx (output.py
lines 279-281): 2 ** ((sqrt(sqrt(sqrt(vol))) * 192 - 192) / 6), i.e.
2 ** ((vol ** (1/8) * 192 - 192) / 6). -/
noncomputable def basic_fx_gain (vol : ℝ) : ℝ :=
  (2 : ℝ) ^ ((Real.sqrt (Real.sqrt (Real.sqrt vol)) * 192 - 192) / 6)

/-- OutputTrack._apply_basic_fx applied to one chunk: np.multiply of the
data by the scalar gain, i.e. every sample times the gain. -/
noncomputable def apply_basic_fx_chunk (vol : ℝ) (data : List ℝ) : List ℝ :=
  data.map (fun x => x * basic_fx_gain vol)

end OutputTrack

/-- The mutable state of an InputTrack (input.py, InputTrack.__init__):
the single-slot last-read holder (self.__data), the overflow flag, the
signal flags and the stream handle. -/
structure InputTrack (α : Type) where
  chunk_size : Nat
  stop_signal : Bool
  stopped : Bool
  data : Option α
  overflow : Bool
  str_handle : Option Stream

namespace InputTrack

/-- Field initialization of InputTrack.__init__ (before the start() call
it makes): chunk_size defaults to 512, empty slot, flags false except
stopped. -/
def init (chunk_size : Option Nat) : InputTrack α :=
  { chunk_size := chunk_size.getD 512
    stop_signal := false
    stopped := true
    data := none
    overflow := false
    str_handle := none }

/-- The head of InputTrack.__start__: entering the sounddevice context
manager sets stopped to False and publishes the stream handle. -/
def runnerStart (t : InputTrack α) (s : Stream) : InputTrack α :=
  { t with stopped := false, str_handle := some s }

/-- One iteration of the runner loop body in InputTrack.__start__
(input.py lines 72-77): read a chunk and its overflow flag from the
device and overwrite the single slot. -/
def runnerCycle (t : InputTrack α) (read : α × Bool) : InputTrack α :=
  { t with data := some read.1, overflow := read.2 }

/-- The teardown reached once the stop signal is observed (input.py
lines 79-83): stopped set, handle nulled, slot cleared, stop signal
reset. -/
def teardown (t : InputTrack α) : InputTrack α :=
  { t with stopped := true, str_handle := none, data := none, stop_signal := false }

/-- The runner loop of InputTrack.__start__, fuel-bounded over a stream
of device reads: while the stop signal is unset run one cycle, and once
it is observed perform the teardown. -/
def runnerRun (inp : Nat → α × Bool) : Nat → InputTrack α → InputTrack α
  | 0, t => t
  | n + 1, t => if t.stop_signal then teardown t else runnerRun inp n (runnerCycle t (inp n))

/-- The state change performed by InputTrack.stop (input.py lines
63-66): set the stop signal; the wait loop (while not self._stopped) is
modelled by stop_wait_blocks. -/
def stop_call (t : InputTrack α) : InputTrack α :=
  { t with stop_signal := true }

/-- Whether the wait loop of stop() would suspend the caller at this
state: it polls while not self._stopped. -/
def stop_wait_blocks (t : InputTrack α) : Bool := !t.stopped

/-- InputTrack.start (input.py lines 57-61) spawns a runner thread
unconditionally - its body has no guard on the current state. -/
def start_spawn_count (_t : InputTrack α) : Nat := 1

end InputTrack

end PyAudioMixer

namespace PyAudioMixer
namespace OutputTrack

/-- Claim C1: with no clear signal pending, write never grows the queue
beyond its capacity, and a non-blocking write on a full queue returns
False without raising and leaves the track unchanged. -/
theorem write_capacity_and_full_nonblocking {α : Type}
    (t : OutputTrack α) (data : α)
    (hclear : t.clear_signal = false) :
    (t.q.length ≤ t.maxsize →
      ∀ wait : Bool, ((write t data wait).2).q.length ≤ t.maxsize) ∧
    (t.q.length = t.maxsize → write t data false = (.ok false, t)) := by
  constructor
  · intro hle wait
    simp only [write, hclear, if_false, Bool.false_eq_true]
    by_cases hlt : t.q.length < t.maxsize
    · simp [hlt]
      omega
    · simp [hlt]
      cases wait <;> simp [hle]
  · intro hfull
    simp [write, hclear, hfull]

/-- Witness for C1: a concrete track with capacity 2 whose queue already
holds 2 chunks; the non-blocking write returns (ok false) unchanged. -/
theorem write_capacity_witness :
    let t : OutputTrack Nat :=
      { q := [1, 2], maxsize := 2, clear_signal := false, stop_signal := false,
        stopped := false, playing := true, str_handle := some ⟨2, 44100⟩,
        apply_basic_fx := true, callback := none }
    t.clear_signal = false ∧ t.q.length = t.maxsize ∧
      write t 9 false = (.ok false, t) := by
  refine ⟨rfl, rfl, ?_⟩
  exact (write_capacity_and_full_nonblocking _ 9 rfl).2 rfl

/-- Claim C10: a write that finds the clear signal set empties the
queue, resets the signal and raises InterruptedError, enqueuing
nothing, regardless of the data and of the wait flag. -/
theorem write_clear_signal {α : Type} (t : OutputTrack α) (data : α) (wait : Bool)
    (h : t.clear_signal = true) :
    write t data wait = (.interrupted, { t with q := [], clear_signal := false }) := by
  simp [write, h]

/-- Witness for C10: a concrete track with three queued chunks and the
clear signal set; write empties the queue and raises. -/
theorem write_clear_signal_witness :
    let t : OutputTrack Nat :=
      { q := [1, 2, 3], maxsize := 50, clear_signal := true, stop_signal := false,
        stopped := false, playing := true, str_handle := some ⟨2, 44100⟩,
        apply_basic_fx := true, callback := none }
    write t 7 true = (.interrupted, { t with q := [], clear_signal := false }) :=
  write_clear_signal _ 7 true rfl

/-- Counterexample to C2: a concrete track with the clear signal set and
two queued chunks; the runner's next queue pop (one runnerCycle) does
not empty the queue and does not reset the clear signal, contradicting
the claim that the runner recognizes and acknowledges the signal. -/
theorem runnerCycle_ignores_clear_counterexample :
    let t : OutputTrack Nat :=
      { q := [1, 2], maxsize := 50, clear_signal := true, stop_signal := false,
        stopped := false, playing := true, str_handle := some ⟨2, 44100⟩,
        apply_basic_fx := true, callback := none }
    t.clear_signal = true ∧
      ¬(((runnerCycle id t).1.q = []) ∧ ((runnerCycle id t).1.clear_signal = false)) := by
  refine ⟨rfl, ?_⟩
  intro h
  simp [runnerCycle, qget] at h

/-- Claim C2 (amended): the runner's queue pop never inspects the clear
signal - one runner cycle leaves the clear signal unchanged and only
removes the front queue element - and the acknowledgment is instead
performed by the producer-side write call, which empties the queue and
resets the signal when it observes it. -/
theorem runnerCycle_clear_signal_handling {α : Type} (fx : α → α) (t : OutputTrack α) :
    ((runnerCycle fx t).1.clear_signal = t.clear_signal) ∧
    ((runnerCycle fx t).1.q = t.q.tail) ∧
    (∀ (d : α) (w : Bool), t.clear_signal = true →
      (write t d w).2.q = [] ∧ (write t d w).2.clear_signal = false) := by
  refine ⟨?_, ?_, ?_⟩
  · cases ht : t.q <;> cases hcb : t.callback <;>
      simp only [runnerCycle, qget, ht, hcb] <;> (try split) <;> rfl
  · cases ht : t.q <;> cases hcb : t.callback <;>
      simp only [runnerCycle, qget, ht, hcb, List.tail] <;> (try split) <;> rfl
  · intro d w h
    simp [write, h]

/-- Witness for C2 (amended): evaluated at a concrete track with the
clear signal set: the runner cycle keeps the signal, and a write clears
the queue and resets it. -/
theorem runnerCycle_clear_signal_handling_witness :
    let t : OutputTrack Nat :=
      { q := [1, 2], maxsize := 50, clear_signal := true, stop_signal := false,
        stopped := false, playing := true, str_handle := some ⟨2, 44100⟩,
        apply_basic_fx := true, callback := none }
    (runnerCycle id t).1.clear_signal = t.clear_signal ∧ (write t 5 true).2.q = [] := by
  intro t
  exact ⟨(runnerCycle_clear_signal_handling id t).1,
    ((runnerCycle_clear_signal_handling id t).2.2 5 true rfl).1⟩

/-- Counterexample to C3: teardown on a concrete state with a non-empty
queue, playing set and the clear signal set leaves all three as they
were - it does not clear the queue and does not reset the playing/clear
flags. -/
theorem teardown_counterexample :
    let t : OutputTrack Nat :=
      { q := [5], maxsize := 50, clear_signal := true, stop_signal := true,
        stopped := false, playing := true, str_handle := some ⟨2, 44100⟩,
        apply_basic_fx := true, callback := none }
    ¬((teardown t).q = [] ∧ (teardown t).playing = false ∧
        (teardown t).clear_signal = false) := by
  intro t h
  simp [teardown, t] at h

/-- Claim C3 (amended): start() followed immediately by stop() on a
freshly initialized track leaves it Stopped with a null stream handle,
an empty queue and false playing/clear/stop flags (for InputTrack: a
cleared slot); but the OutputTrack teardown itself only sets stopped,
nulls the handle and resets the stop signal - it leaves the queue and
the playing/clear flags untouched. -/
theorem start_stop_final_state {α : Type} (s : Stream) (fx : α → α)
    (maxq : Option Nat) (inp : Nat → α × Bool) :
    (let final := runnerRun fx 1 (stop_call (runnerStart (init maxq true none) s))
     final.stopped = true ∧ final.str_handle = none ∧ final.q = [] ∧
       final.playing = false ∧ final.clear_signal = false ∧ final.stop_signal = false) ∧
    (∀ t : OutputTrack α,
      (teardown t).q = t.q ∧ (teardown t).playing = t.playing ∧
      (teardown t).clear_signal = t.clear_signal ∧ (teardown t).stopped = true ∧
      (teardown t).str_handle = none ∧ (teardown t).stop_signal = false) ∧
    (let fin2 := InputTrack.runnerRun inp 1
        (InputTrack.stop_call (InputTrack.runnerStart (InputTrack.init none) s))
     fin2.stopped = true ∧ fin2.str_handle = none ∧ fin2.data = none ∧
       fin2.stop_signal = false) := by
  refine ⟨?_, fun t => ⟨rfl, rfl, rfl, rfl, rfl, rfl⟩, ?_⟩
  · simp [runnerRun, stop_call, abort_call, runnerStart, init, teardown]
  · simp [InputTrack.runnerRun, InputTrack.stop_call, InputTrack.runnerStart,
      InputTrack.init, InputTrack.teardown]

/-- Counterexample to C4: a concrete already-Stopped track with the
stop-request flag false; calling stop() sets the flag to true, so the
track state is not left unchanged. -/
theorem stop_on_stopped_counterexample :
    let t : OutputTrack Nat :=
      { q := [], maxsize := 50, clear_signal := false, stop_signal := false,
        stopped := true, playing := false, str_handle := none,
        apply_basic_fx := true, callback := none }
    t.stopped = true ∧ t.stop_signal = false ∧ (stop_call t).stop_signal = true := by
  exact ⟨rfl, rfl, rfl⟩

/-- Claim C4 (amended): stop() on an already-Stopped (and not playing)
track returns without suspending - the abort wait and the final wait
both find their conditions already false - but it is not a pure no-op:
it sets the stop-request flag to true and leaves every other field
unchanged; likewise for InputTrack. -/
theorem stop_idempotent_amended {α : Type} (t : OutputTrack α) (ti : InputTrack α)
    (hs : t.stopped = true) (hp : t.playing = false) (hsi : ti.stopped = true) :
    abort_call t = t ∧ abort_blocks t = false ∧
    stop_call t = { t with stop_signal := true } ∧
    stop_wait_blocks (stop_call t) = false ∧
    InputTrack.stop_call ti = { ti with stop_signal := true } ∧
    InputTrack.stop_wait_blocks (InputTrack.stop_call ti) = false := by
  refine ⟨?_, ?_, ?_, ?_, rfl, ?_⟩
  · simp [abort_call, hp]
  · simp [abort_blocks, hp]
  · simp [stop_call, abort_call, hp]
  · simp [stop_wait_blocks, stop_call, abort_call, hp, hs]
  · simp [InputTrack.stop_wait_blocks, InputTrack.stop_call, hsi]

/-- Witness for C4 (amended): evaluated on concrete stopped tracks. -/
theorem stop_idempotent_amended_witness :
    let t : OutputTrack Nat :=
      { q := [], maxsize := 50, clear_signal := false, stop_signal := false,
        stopped := true, playing := false, str_handle := none,
        apply_basic_fx := true, callback := none }
    let ti : InputTrack Nat :=
      { chunk_size := 512, stop_signal := false, stopped := true,
        data := none, overflow := false, str_handle := none }
    stop_call t = { t with stop_signal := true } ∧
      InputTrack.stop_call ti = { ti with stop_signal := true } := by
  intro t ti
  exact ⟨(stop_idempotent_amended t ti rfl rfl rfl).2.2.1,
    (stop_idempotent_amended t ti rfl rfl rfl).2.2.2.2.1⟩

/-- Counterexample to C5: a concrete track that is not Stopped; the
source start() spawns one new StreamRunner anyway (its body has no
guard), whereas the claim requires zero to be spawned. -/
theorem start_no_guard_counterexample :
    let t : OutputTrack Nat :=
      { q := [], maxsize := 50, clear_signal := false, stop_signal := false,
        stopped := false, playing := false, str_handle := some ⟨2, 44100⟩,
        apply_basic_fx := true, callback := none }
    t.stopped = false ∧ start_spawn_count t = 1 ∧ spec_start_spawn_count t = 0 := by
  exact ⟨rfl, rfl, rfl⟩

/-- Claim C5 (amended): start() has no state guard: it spawns exactly
one new StreamRunner whatever the current state (for both track kinds),
its wait loop suspends exactly when the track is still Stopped, and on
a non-Stopped track its behavior therefore differs from the spec's
guarded start, which would spawn none. -/
theorem start_always_spawns {α : Type} (t : OutputTrack α) (ti : InputTrack α) :
    start_spawn_count t = 1 ∧
    InputTrack.start_spawn_count ti = 1 ∧
    start_wait_blocks t = t.stopped ∧
    (t.stopped = false → start_spawn_count t ≠ spec_start_spawn_count t) := by
  refine ⟨rfl, rfl, rfl, ?_⟩
  intro h
  simp [start_spawn_count, spec_start_spawn_count, h]

/-- Witness for C5 (amended): evaluated on a concrete running track. -/
theorem start_always_spawns_witness :
    let t : OutputTrack Nat :=
      { q := [], maxsize := 50, clear_signal := false, stop_signal := false,
        stopped := false, playing := false, str_handle := some ⟨2, 44100⟩,
        apply_basic_fx := true, callback := none }
    let ti : InputTrack Nat :=
      { chunk_size := 512, stop_signal := false, stopped := true,
        data := none, overflow := false, str_handle := none }
    start_spawn_count t = 1 ∧ InputTrack.start_spawn_count ti = 1 ∧
      start_spawn_count t ≠ spec_start_spawn_count t := by
  intro t ti
  exact ⟨(start_always_spawns t ti).1, (start_always_spawns t ti).2.1,
    (start_always_spawns t ti).2.2.2 rfl⟩

end OutputTrack

theorem splitBySizes_flatten {α : Type} (ns : List Nat) (l : List α)
    (h : ns.sum = l.length) : (splitBySizes ns l).flatten = l := by
  induction ns generalizing l with
  | nil =>
    simp only [splitBySizes, List.flatten_nil]
    simp only [List.sum_nil] at h
    exact (List.eq_nil_of_length_eq_zero h.symm).symm
  | cons n ns ih =>
    simp only [List.sum_cons] at h
    simp only [splitBySizes, List.flatten_cons]
    rw [ih (l.drop n) (by simp only [List.length_drop]; omega)]
    exact List.take_append_drop n l

theorem splitBySizes_length {α : Type} (ns : List Nat) (l : List α) :
    (splitBySizes ns l).length = ns.length := by
  induction ns generalizing l with
  | nil => rfl
  | cons n ns ih => simp [splitBySizes, ih]

theorem splitBySizes_map_length {α : Type} (ns : List Nat) (l : List α)
    (h : ns.sum ≤ l.length) : (splitBySizes ns l).map List.length = ns := by
  induction ns generalizing l with
  | nil => rfl
  | cons n ns ih =>
    simp only [List.sum_cons] at h
    simp only [splitBySizes, List.map_cons, List.length_take,
      ih (l.drop n) (by simp only [List.length_drop]; omega)]
    congr 1
    exact inf_eq_left.mpr (by omega)

theorem sectionSizes_sum (len k : Nat) (hk : 0 < k) :
    (sectionSizes len k).sum = len := by
  have hr : len % k < k := Nat.mod_lt _ hk
  have hdm := Nat.div_add_mod len k
  unfold sectionSizes
  rw [List.sum_append, List.sum_const_nat, List.sum_const_nat]
  have hle : len % k * (len / k) ≤ k * (len / k) :=
    Nat.mul_le_mul_right _ hr.le
  rw [Nat.mul_add, Nat.mul_one, Nat.sub_mul, Nat.add_assoc,
    Nat.add_comm (len % k) (k * (len / k) - len % k * (len / k)),
    ← Nat.add_assoc, Nat.add_sub_cancel' hle]
  exact hdm

theorem sectionSizes_length (len k : Nat) (hk : 0 < k) :
    (sectionSizes len k).length = k := by
  have hr : len % k < k := Nat.mod_lt _ hk
  simp [sectionSizes]
  omega

theorem sectionSizes_mem (len k x : Nat) (hx : x ∈ sectionSizes len k) :
    x = len / k ∨ x = len / k + 1 := by
  simp only [sectionSizes, List.mem_append, List.mem_replicate] at hx
  rcases hx with ⟨_, h⟩ | ⟨_, h⟩
  · exact Or.inr h
  · exact Or.inl h

namespace OutputTrack

/-- Counterexample to C6: chunk_split on a 5-frame buffer with chunk
size 2 yields pieces [3, 2] frames long - the first (non-last) piece
does not have exactly 2 frames, contradicting the claim that every
piece except possibly the last has exactly the requested size. -/
theorem chunk_split_counterexample :
    ¬ (∀ p ∈ (chunk_split ([0, 1, 2, 3, 4] : List Nat) 2).dropLast,
        p.length = 2) := by
  decide

/-- Claim C6 (amended): chunk_split cuts the buffer into
k = max(1, floor(len / size)) near-equal consecutive sections in the
np.array_split sense: their concatenation is the original buffer, there
are exactly k of them, each has floor(len / k) or floor(len / k) + 1
frames (so pieces can exceed the requested size), and a buffer shorter
than one chunk comes back as the single piece equal to the whole
buffer. -/
theorem chunk_split_sections {α : Type} (data : List α) (size : Nat) :
    (chunk_split data size).flatten = data ∧
    (chunk_split data size).length = num_sections data.length size ∧
    (∀ p ∈ chunk_split data size,
      p.length = data.length / num_sections data.length size ∨
      p.length = data.length / num_sections data.length size + 1) ∧
    (data.length < size → chunk_split data size = [data]) := by
  have hk : 0 < num_sections data.length size := by
    unfold num_sections
    split <;> omega
  have hsum := sectionSizes_sum data.length (num_sections data.length size) hk
  refine ⟨?_, ?_, ?_, ?_⟩
  · exact splitBySizes_flatten _ _ hsum
  · rw [chunk_split, array_split, splitBySizes_length]
    exact sectionSizes_length _ _ hk
  · intro p hp
    have hmem : p.length ∈ sectionSizes data.length (num_sections data.length size) := by
      rw [← splitBySizes_map_length _ data hsum.le]
      exact List.mem_map_of_mem List.length hp
    exact sectionSizes_mem _ _ _ hmem
  · intro hlt
    have hz : data.length / size = 0 := Nat.div_eq_of_lt hlt
    simp [chunk_split, array_split, num_sections, hz, sectionSizes,
      splitBySizes, Nat.mod_one, Nat.div_one]

/-- Witness for C6 (amended): a 3-frame buffer with chunk size 5 comes
back as a single piece equal to the whole buffer. -/
theorem chunk_split_sections_witness :
    ([0, 1, 2] : List Nat).length < 5 ∧
      chunk_split ([0, 1, 2] : List Nat) 5 = [[0, 1, 2]] :=
  ⟨by decide, (chunk_split_sections [0, 1, 2] 5).2.2.2 (by decide)⟩

end OutputTrack

theorem forall2_mono_dup {α : Type} :
    ∀ (data : List (List α)), (∀ row ∈ data, ∃ x, row = [x]) →
      List.Forall₂ (fun src dst => ∃ x, src = [x] ∧ dst = [x, x])
        data (data.map (fun row => row.flatMap (fun x => List.replicate 2 x)))
  | [], _ => List.Forall₂.nil
  | r :: rs, h => by
    obtain ⟨x, hx⟩ := h r (by simp)
    exact List.Forall₂.cons ⟨x, hx, by simp [hx]⟩
      (forall2_mono_dup rs (fun row hr => h row (by simp [hr])))

namespace OutputTrack

/-- Claim C7: channel-matching a mono source (every frame a single
sample) against a two-channel stream yields a buffer with the same
number of frames in which each frame is the source sample duplicated
across both channels. -/
theorem channel_match_mono_stereo {α : Type} (data : List (List α))
    (h : ∀ row ∈ data, ∃ x, row = [x]) :
    (channel_match data 1 2).length = data.length ∧
    List.Forall₂ (fun src dst => ∃ x, src = [x] ∧ dst = [x, x])
      data (channel_match data 1 2) := by
  have hcm : channel_match data 1 2 =
      data.map (fun row => row.flatMap (fun x => List.replicate 2 x)) := by
    simp [channel_match, np_repeat_last]
  rw [hcm]
  exact ⟨List.length_map data _, forall2_mono_dup data h⟩

/-- Witness for C7: a concrete two-frame mono buffer. -/
theorem channel_match_mono_stereo_witness :
    List.Forall₂ (fun src dst => ∃ x, src = [x] ∧ dst = [x, x])
      ([[3], [7]] : List (List Nat)) (channel_match [[3], [7]] 1 2) :=
  (channel_match_mono_stereo [[3], [7]]
    (by rintro row hr; simp at hr; rcases hr with h | h <;> exact ⟨_, h⟩)).2

/-- Claim C9: write raises the interrupted condition exactly when the
clear signal is observed; the writer loop returns normally from its
first interrupted write with nothing further enqueued; and no exception
ever escapes the writer loop. -/
theorem writer_loop_interrupt_handling {α : Type} :
    (∀ (t : OutputTrack α) (d : α) (w : Bool),
      (write t d w).1 = .interrupted ↔ t.clear_signal = true) ∧
    (∀ (t : OutputTrack α) (pieces : List α),
      (writer_loop t pieces).isRaised = false) ∧
    (∀ (t : OutputTrack α) (d : α) (rest : List α), t.clear_signal = true →
      writer_loop t (d :: rest) = .done { t with q := [], clear_signal := false }) := by
  refine ⟨?_, ?_, ?_⟩
  · intro t d w
    cases h : t.clear_signal <;> simp [write, h] <;> split_ifs <;> simp
  · intro t pieces
    induction pieces generalizing t with
    | nil => rfl
    | cons d rest ih =>
      simp only [writer_loop]
      rcases hw : write t d true with ⟨r, t1⟩
      cases r
      · exact ih t1
      · rfl
      · rfl
  · intro t d rest h
    simp [writer_loop, write, h]

/-- Witness for C9: a concrete track with the clear signal set; the
writer loop on a two-piece list returns normally at once, with the
queue emptied and the signal reset. -/
theorem writer_loop_interrupt_witness :
    let t : OutputTrack Nat :=
      { q := [1, 2], maxsize := 50, clear_signal := true, stop_signal := false,
        stopped := false, playing := true, str_handle := some ⟨2, 44100⟩,
        apply_basic_fx := true, callback := none }
    writer_loop t [4, 5] = .done { t with q := [], clear_signal := false } := by
  intro t
  exact writer_loop_interrupt_handling.2.2 t 4 [5] rfl

/-- Claim C8: the basic-effects transform multiplies every sample by the
gain 2 ** ((vol ** (1/8) * 192 - 192) / 6); that gain is strictly
increasing in vol over (0, infinity) and equals 1 (within 1e-6) at
vol = 1. -/
theorem basic_fx_gain_monotone_unity :
    (∀ u v : ℝ, 0 < u → u < v → basic_fx_gain u < basic_fx_gain v) ∧
    |basic_fx_gain 1 - 1| ≤ 1e-6 ∧
    (∀ (vol : ℝ) (data : List ℝ) (i : Nat),
      (apply_basic_fx_chunk vol data)[i]? = data[i]?.map (fun x => x * basic_fx_gain vol)) := by
  refine ⟨?_, ?_, ?_⟩
  · intro u v hu huv
    unfold basic_fx_gain
    refine (Real.rpow_lt_rpow_left_iff (by norm_num : (1:ℝ) < 2)).mpr ?_
    refine div_lt_div_of_pos_right ?_ (by norm_num)
    refine sub_lt_sub_right ?_ 192
    refine mul_lt_mul_of_pos_right ?_ (by norm_num)
    exact Real.sqrt_lt_sqrt (Real.sqrt_nonneg _)
      (Real.sqrt_lt_sqrt (Real.sqrt_nonneg _) (Real.sqrt_lt_sqrt hu.le huv))
  · have h1 : basic_fx_gain 1 = 1 := by
      rw [basic_fx_gain, Real.sqrt_one, Real.sqrt_one, Real.sqrt_one]
      norm_num
    rw [h1]
    norm_num
  · intro vol data i
    simp [apply_basic_fx_chunk]

/-- Witness for C8: the strict monotonicity applied at vol = 1 and
vol = 2. -/
theorem basic_fx_gain_witness :
    (0 : ℝ) < 1 ∧ (1 : ℝ) < 2 ∧ basic_fx_gain 1 < basic_fx_gain 2 :=
  ⟨by norm_num, by norm_num,
    basic_fx_gain_monotone_unity.1 1 2 (by norm_num) (by norm_num)⟩

end OutputTrack
end PyAudioMixer
